import Mathlib

/-!
Verification of the Graph Consolidation Engine of a personal-blog /
knowledge-graph service (Go backend over a Neo4j store).

The definitions below are a shallow embedding of the Go code in
`backend/internal/database/neo4j.go` and the embedding utilities
(`cosineSimilarity` etc.).  The graph store is modelled as an explicit
value (`Graph`): a list of nodes and a list of edges; Cypher queries
become list transformations.  Machine floats are modelled by exact
arithmetic: `ℚ` for the computable pipeline and `ℝ` where a square root
occurs.  Neo4j properties that may be absent (`r.consolidated IS NULL`)
are `Option`s.  External collaborators (the generative synthesis
service) are modelled as oracles passed in as parameters.
-/

namespace Consolidation

/-- A node as stored in Neo4j.  `kind` is the lower-case node type used
throughout the Go code ("system" / "stock" / "flow"; other labels such
as narratives also occur).  The `last_consolidated_at` timestamp is
omitted: no consolidation logic ever reads it. -/
structure StoreNode where
  id : String
  kind : String
  name : String
  description : String
  embedding : List ℚ
  embedded : Bool
  consolidated : Bool
  consolidationScore : Int
deriving DecidableEq

/-- Relationship properties touched by consolidation.  `consolidated`
and `consolidationScore` may be absent in the store (`IS NULL`), hence
`Option`.  `question` is the evidence text carried by CAUSAL_LINK
edges at creation. -/
structure EdgeProps where
  consolidated : Option Bool
  consolidationScore : Option Int
  question : Option String
deriving DecidableEq

/-- A directed, typed relationship of the graph store. -/
structure Edge where
  relType : String
  fromId : String
  toId : String
  props : EdgeProps
deriving DecidableEq

/-- The whole graph store. -/
structure Graph where
  nodes : List StoreNode
  edges : List Edge
deriving DecidableEq

/-- `models.NodeMatch`: one planned consolidation.
`UnconsolidatedID = ConsolidatedID` denotes a promotion. -/
structure NodeMatch where
  UnconsolidatedID : String
  ConsolidatedID : String
  NodeType : String
  SimilarityScore : ℚ
  NewName : String
  NewDescription : String
deriving DecidableEq

/-- `models.RelationshipConsolidation` as fetched by
`fetchUnconsolidatedRelationships` (only the fields the code reads). -/
structure RelationshipConsolidation where
  RelationType : String
  FromID : String
  ToID : String
deriving DecidableEq

/-! ## Embedding utilities (`cosineSimilarity`) -/

/-- The dot-product accumulation loop of `cosineSimilarity`
(`dotProduct += a[i] * b[i]` over the common indices). -/
def dotProduct (a b : List ℚ) : ℚ := (List.zipWith (fun x y => x * y) a b).sum

/-- `cosineSimilarity` from the embedding utilities, as an input/output
relation (the final value divides by real square roots of the squared
magnitudes, hence lives in `ℝ`).  Returns an error for mismatched
lengths, `0` when either squared magnitude is zero, and
`dot / (√‖a‖² * √‖b‖²)` otherwise — exactly the Go control flow. -/
def cosineSimilarity (a b : List ℚ) (out : Except String ℝ) : Prop :=
  if a.length ≠ b.length then
    out = Except.error "vectors must have the same length to calculate similarity"
  else if dotProduct a a = 0 ∨ dotProduct b b = 0 then
    out = Except.ok 0
  else
    out = Except.ok ((dotProduct a b : ℝ) /
      (Real.sqrt (dotProduct a a) * Real.sqrt (dotProduct b b)))

/-! ## SimilarityMatcher (`findNodeMatches`, first-run branch)

The matcher only compares similarity scores (`>=` against the
threshold, `>` against the best so far), so it is stated over an
arbitrary similarity function `simf` into `ℚ`; the Go code instantiates
it with `cosineSimilarity`. -/

/-- `const similarityThreshold = 0.60` in `findNodeMatches`. -/
def similarityThreshold : ℚ := 60 / 100

/-- The inner `j := i+1 ...` scan of the first-run branch: fold over the
remaining nodes keeping `(bestMatchID, bestScore)`, starting from
`(node1.id, -1)`; a pair whose similarity errors is skipped with a
warning; a candidate replaces the best when `score >= threshold` and
`score > bestScore`. -/
def findBestMatch (simf : List ℚ → List ℚ → Except String ℚ)
    (node1 : StoreNode) (rest : List StoreNode) (processed : List String) :
    String × ℚ :=
  rest.foldl
    (fun acc node2 =>
      if processed.contains node2.id then acc
      else
        match simf node1.embedding node2.embedding with
        | Except.error _ => acc
        | Except.ok score =>
          if similarityThreshold ≤ score ∧ acc.2 < score then (node2.id, score) else acc)
    (node1.id, -1)

/-- The outer first-run loop of `findNodeMatches`: process nodes in
input order, skipping already-processed ones; if a best partner was
found, emit a merge entry for it (and mark it processed), then always
emit a self-promotion entry with similarity `1.0` for the current node
(and mark it processed). -/
def findNodeMatchesFirstRun (simf : List ℚ → List ℚ → Except String ℚ)
    (nodeType : String) : List StoreNode → List String → List NodeMatch
  | [], _ => []
  | node1 :: rest, processed =>
    if processed.contains node1.id then
      findNodeMatchesFirstRun simf nodeType rest processed
    else
      let best := findBestMatch simf node1 rest processed
      let tail :=
        { UnconsolidatedID := node1.id, ConsolidatedID := node1.id,
          NodeType := nodeType, SimilarityScore := 1,
          NewName := "", NewDescription := "" } ::
        findNodeMatchesFirstRun simf nodeType rest
          (node1.id :: (if best.1 ≠ node1.id then best.1 :: processed else processed))
      if best.1 ≠ node1.id then
        { UnconsolidatedID := best.1, ConsolidatedID := node1.id,
          NodeType := nodeType, SimilarityScore := best.2,
          NewName := "", NewDescription := "" } :: tail
      else tail

/-! ## StateMerger — node phase -/

/-- `calculateWeightedAverageEmbedding`: when the lengths differ it logs
a warning and returns the *first* embedding, otherwise the elementwise
`(e1[i]*w1 + e2[i]*w2) / (w1 + w2)`. -/
def calculateWeightedAverageEmbedding (embedding1 : List ℚ) (weight1 : ℚ)
    (embedding2 : List ℚ) (weight2 : ℚ) : List ℚ :=
  if embedding1.length ≠ embedding2.length then
    embedding1
  else
    List.zipWith (fun x y => (x * weight1 + y * weight2) / (weight1 + weight2))
      embedding1 embedding2

/-- The `switch nodeType` guard shared by the node-phase queries. -/
def validNodeType (t : String) : Bool :=
  t == "system" || t == "stock" || t == "flow"

/-- `MATCH (n:Label {id: $id})` for the label selected by `nodeType`:
first node with this id and kind. -/
def findNode (g : Graph) (nodeID nodeType : String) : Option StoreNode :=
  g.nodes.find? (fun n => n.id == nodeID && n.kind == nodeType)

/-- `getNodeEmbeddingAndScore`: unknown node type and missing node are
errors; otherwise return the embedding and consolidation score. -/
def getNodeEmbeddingAndScore (g : Graph) (nodeID nodeType : String) :
    Except String (List ℚ × Int) :=
  if validNodeType nodeType then
    match findNode g nodeID nodeType with
    | some n => Except.ok (n.embedding, n.consolidationScore)
    | none => Except.error ("node not found: " ++ nodeID)
  else
    Except.error ("unknown node type: " ++ nodeType)

/-- `promoteNodeToConsolidated`: `SET consolidated = true,
consolidation_score = 1` on the node with this id and label. -/
def promoteNodeToConsolidated (g : Graph) (nodeID nodeType : String) :
    Except String Graph :=
  if validNodeType nodeType then
    Except.ok { g with nodes := g.nodes.map (fun n =>
      if n.id == nodeID && n.kind == nodeType then
        { n with consolidated := true, consolidationScore := 1 }
      else n) }
  else
    Except.error ("unknown node type: " ++ nodeType)

/-- The `SET` clause of the merge update query: new embedding, score
incremented in the store, name/description overwritten only when a
synthesized value is non-empty. -/
def updateConsolidatedNode (m : NodeMatch) (newEmbedding : List ℚ)
    (n : StoreNode) : StoreNode :=
  if n.id == m.ConsolidatedID && n.kind == m.NodeType then
    { n with
        embedding := newEmbedding,
        consolidationScore := n.consolidationScore + 1,
        name := if m.NewName ≠ "" then m.NewName else n.name,
        description := if m.NewDescription ≠ "" then m.NewDescription else n.description }
  else n

/-- One step of the relationship-transfer loop inside
`mergeIntoConsolidatedNode`: re-create the edge at the consolidated
node (outgoing or incoming according to `startNode(r) = from`) unless
an edge of the same type already exists in that direction. -/
def transferStep (uId cId : String) (es : List Edge) (e : Edge) : List Edge :=
  if e.fromId == uId then
    if es.any (fun e2 => e2.relType == e.relType && e2.fromId == cId && e2.toId == e.toId)
    then es
    else es ++ [{ relType := e.relType, fromId := cId, toId := e.toId, props := e.props }]
  else
    if es.any (fun e2 => e2.relType == e.relType && e2.fromId == e.fromId && e2.toId == cId)
    then es
    else es ++ [{ relType := e.relType, fromId := e.fromId, toId := cId, props := e.props }]

/-- `mergeIntoConsolidatedNode`: fetch both nodes (errors propagate),
compute the weighted-average embedding with weights `1` (absorbed) and
the canonical node's current score, update the canonical node, transfer
every incident relationship of the absorbed node, then `DETACH DELETE`
the absorbed node (removing it and all edges touching its id). -/
def mergeIntoConsolidatedNode (g : Graph) (m : NodeMatch) : Except String Graph :=
  match getNodeEmbeddingAndScore g m.UnconsolidatedID m.NodeType with
  | Except.error e => Except.error e
  | Except.ok u =>
    match getNodeEmbeddingAndScore g m.ConsolidatedID m.NodeType with
    | Except.error e => Except.error e
    | Except.ok c =>
      let newEmbedding := calculateWeightedAverageEmbedding u.1 1 c.1 (c.2 : ℚ)
      let nodes1 := g.nodes.map (updateConsolidatedNode m newEmbedding)
      let incident := g.edges.filter (fun e =>
        e.fromId == m.UnconsolidatedID || e.toId == m.UnconsolidatedID)
      let edges1 := incident.foldl (transferStep m.UnconsolidatedID m.ConsolidatedID) g.edges
      Except.ok
        { nodes := nodes1.filter (fun n => n.id ≠ m.UnconsolidatedID),
          edges := edges1.filter (fun e =>
            e.fromId ≠ m.UnconsolidatedID ∧ e.toId ≠ m.UnconsolidatedID) }

/-- `consolidateNodes`: for each match run a promotion (same id) or a
merge; a failing item is logged and skipped, the fold continues on the
unchanged graph. -/
def consolidateNodes (g : Graph) (nodeMatches : List NodeMatch) : Graph :=
  nodeMatches.foldl
    (fun acc m =>
      if m.UnconsolidatedID == m.ConsolidatedID then
        match promoteNodeToConsolidated acc m.UnconsolidatedID m.NodeType with
        | Except.ok g2 => g2
        | Except.error _ => acc
      else
        match mergeIntoConsolidatedNode acc m with
        | Except.ok g2 => g2
        | Except.error _ => acc)
    g

/-! ## RelationshipRewirer — edge phase -/

/-- `r.consolidated = false OR r.consolidated IS NULL`. -/
def unconsolidatedEdge (e : Edge) : Bool := e.props.consolidated != some true

/-- The dynamic `RETURN DISTINCT type(r)` discovery, in first-appearance
order over the unconsolidated edges. -/
def discoverRelTypes (g : Graph) : List String :=
  (g.edges.filter unconsolidatedEdge).foldl
    (fun acc e => if acc.contains e.relType then acc else acc ++ [e.relType]) []

/-- `fetchUnconsolidatedRelationships`: for each discovered type, one
`RelationshipConsolidation` record per unconsolidated edge of that
type. -/
def fetchUnconsolidatedRelationships (g : Graph) : List RelationshipConsolidation :=
  ((discoverRelTypes g).map (fun t =>
    (g.edges.filter (fun e => unconsolidatedEdge e && e.relType == t)).map
      (fun e => ({ RelationType := t, FromID := e.fromId, ToID := e.toId } :
        RelationshipConsolidation)))).flatten

/-- Case 1 of `processRelationshipConsolidation` (`SET r.consolidated =
true, r.consolidation_score = 1` on every edge matching the original
triple). -/
def setConsolidatedInPlace (rel : RelationshipConsolidation) (e : Edge) : Edge :=
  if e.relType == rel.RelationType && e.fromId == rel.FromID && e.toId == rel.ToID then
    { e with props := { e.props with consolidated := some true, consolidationScore := some 1 } }
  else e

/-- `processRelationshipConsolidation`.  Endpoints are resolved through
the node mapping (absent entries pass through).  If neither endpoint
was consolidated, flag the edge in place (Case 1).  Otherwise `MERGE`
the edge at the canonical endpoints (requires both canonical nodes to
exist): on create it gets `consolidated = true, score = 1` and no other
properties; on match every edge at the canonical triple gets
`consolidated = true` and its score incremented (`COALESCE(score,0)+1`);
finally the edges at the original triple are deleted, but only when the
endpoints actually changed. -/
def processRelationshipConsolidation (nodeMapping : String → Option String)
    (g : Graph) (rel : RelationshipConsolidation) : Graph :=
  let consolidatedFrom := (nodeMapping rel.FromID).getD rel.FromID
  let consolidatedTo := (nodeMapping rel.ToID).getD rel.ToID
  let fromWasConsolidated := (nodeMapping rel.FromID).isSome
  let toWasConsolidated := (nodeMapping rel.ToID).isSome
  if fromWasConsolidated = false ∧ toWasConsolidated = false then
    { g with edges := g.edges.map (setConsolidatedInPlace rel) }
  else
    let g1 :=
      if g.nodes.any (fun n => n.id == consolidatedFrom) ∧
          g.nodes.any (fun n => n.id == consolidatedTo) then
        if g.edges.any (fun e => e.relType == rel.RelationType &&
            e.fromId == consolidatedFrom && e.toId == consolidatedTo) then
          { g with edges := g.edges.map (fun e =>
              if e.relType == rel.RelationType && e.fromId == consolidatedFrom &&
                  e.toId == consolidatedTo then
                { e with props := { e.props with
                    consolidated := some true,
                    consolidationScore := some (e.props.consolidationScore.getD 0 + 1) } }
              else e) }
        else
          { g with edges := g.edges ++
              [{ relType := rel.RelationType, fromId := consolidatedFrom,
                 toId := consolidatedTo,
                 props := { consolidated := some true, consolidationScore := some 1,
                            question := none } }] }
      else g
    if consolidatedFrom ≠ rel.FromID ∨ consolidatedTo ≠ rel.ToID then
      { g1 with edges := g1.edges.filter (fun e =>
          !(e.relType == rel.RelationType && e.fromId == rel.FromID && e.toId == rel.ToID)) }
    else g1

/-- The `nodeMapping` Go map built in `consolidateRelationships`
(`nodeMapping[match.UnconsolidatedID] = match.ConsolidatedID`; a later
entry for the same key wins). -/
def buildNodeMapping (ms : List NodeMatch) : String → Option String :=
  fun id =>
    (ms.reverse.find? (fun m => m.UnconsolidatedID == id)).map
      (fun m => m.ConsolidatedID)

/-- `consolidateRelationships`: fetch the unconsolidated relationships
once, then process each against the evolving graph (per-item errors are
logged and skipped; the modelled store operations do not fail). -/
def consolidateRelationships (g : Graph) (ms : List NodeMatch) : Graph :=
  (fetchUnconsolidatedRelationships g).foldl
    (processRelationshipConsolidation (buildNodeMapping ms)) g

/-! ## Cleanup, Reset, NameSynthesizer, orchestrator -/

/-- Whether `MATCH (n) WHERE n.consolidated = false DETACH DELETE n`
deletes the node carrying this id. -/
def nodeMarkedForCleanup (g : Graph) (id : String) : Bool :=
  g.nodes.any (fun n => n.id == id && n.consolidated == false)

/-- `cleanupUnconsolidatedNodes`: detach-delete every node with
`consolidated = false`, removing all edges touching a deleted node. -/
def cleanupUnconsolidatedNodes (g : Graph) : Graph :=
  { nodes := g.nodes.filter (fun n => n.consolidated),
    edges := g.edges.filter (fun e =>
      !nodeMarkedForCleanup g e.fromId && !nodeMarkedForCleanup g e.toId) }

/-- The fixed relationship-type list of `ResetConsolidation`. -/
def resetRelTypes : List String :=
  ["DESCRIBES", "DESCRIBES_STATIC", "CAUSAL_LINK", "CHANGES"]

/-- `ResetConsolidation`: `consolidated = false, consolidation_score = 0`
on every *embedded* System/Stock/Flow node and on every relationship
whose type is in the fixed list above; nothing else is touched. -/
def resetConsolidation (g : Graph) : Graph :=
  { nodes := g.nodes.map (fun n =>
      if (n.kind == "system" || n.kind == "stock" || n.kind == "flow") && n.embedded then
        { n with consolidated := false, consolidationScore := 0 }
      else n),
    edges := g.edges.map (fun e =>
      if resetRelTypes.contains e.relType then
        { e with props := { e.props with
            consolidated := some false,
            consolidationScore := some 0 } }
      else e) }

/-- Outcome of the per-match external interaction of
`synthesizeNamesAndDescriptions` (node-detail fetches, request
creation, the HTTP call, response decoding and the inner JSON parse).
Only a fully successful interaction yields a parsed name/description. -/
inductive SynthOutcome where
  | fetchUnconsolidatedFailed
  | fetchConsolidatedFailed
  | requestCreationFailed
  | networkFailed
  | httpStatusNotOk (code : Nat)
  | responseDecodeFailed
  | payloadNotJson
  | success (name description : String)
deriving DecidableEq

/-- Effect of one interaction outcome on a match: only full success
writes the synthesized name/description; every failure leaves the
match unchanged (warning logged, loop continues). -/
def applySynthOutcome (o : SynthOutcome) (m : NodeMatch) : NodeMatch :=
  match o with
  | SynthOutcome.success n d => { m with NewName := n, NewDescription := d }
  | _ => m

/-- `synthesizeNamesAndDescriptions`: an empty `GEMINI_API_KEY` is
returned as an error before any match is processed; otherwise every
merge match (and only merge matches) is run through its interaction
outcome, and the function always returns `ok`. -/
def synthesizeNamesAndDescriptions (geminiApiKey : String)
    (outcome : Nat → SynthOutcome) (nodeMatches : List NodeMatch) :
    Except String (List NodeMatch) :=
  if geminiApiKey = "" then
    Except.error "GEMINI_API_KEY environment variable not set"
  else
    Except.ok (nodeMatches.enum.map (fun p =>
      if p.2.UnconsolidatedID == p.2.ConsolidatedID then p.2
      else applySynthOutcome (outcome p.1) p.2))

/-- Steps 3–6 of the `ConsolidateGraph` handler, from an already
computed match list: synthesis (an error here aborts the run with a 500
response and nothing further executes), node phase, relationship
phase, cleanup. -/
def consolidateGraphFromMatches (geminiApiKey : String)
    (outcome : Nat → SynthOutcome) (g : Graph) (nodeMatches : List NodeMatch) :
    Except String Graph :=
  match synthesizeNamesAndDescriptions geminiApiKey outcome nodeMatches with
  | Except.error e => Except.error e
  | Except.ok ms =>
    Except.ok (cleanupUnconsolidatedNodes
      (consolidateRelationships (consolidateNodes g ms) ms))

/-! ## Helpers for theorem statements and concrete inputs -/

/-- The (type, from, to) triple identifying a canonical edge slot. -/
def tripleOf (e : Edge) : String × String × String := (e.relType, e.fromId, e.toId)

/-- Two edges occupy the same (type, from, to) slot. -/
def sameTriple (e1 e2 : Edge) : Prop := tripleOf e1 = tripleOf e2

/-- Elementwise sum of two vectors. -/
def addVec (a b : List ℚ) : List ℚ := List.zipWith (fun x y => x + y) a b

/-- Scale a vector by a constant. -/
def smulVec (c : ℚ) (v : List ℚ) : List ℚ := v.map (fun x => c * x)

/-- `init + v₁ + v₂ + ⋯` over a list of vectors. -/
def weightedSum (init : List ℚ) (vs : List (List ℚ)) : List ℚ := vs.foldl addVec init

/-- The ids of a node list, in order. -/
def idsOf (ns : List StoreNode) : List String := ns.map StoreNode.id

/-- The merge match `u → canonical` produced for an absorbed node (no
synthesized name/description). -/
def mergeMatchFor (cId kind : String) (u : StoreNode) : NodeMatch :=
  { UnconsolidatedID := u.id, ConsolidatedID := cId, NodeType := kind,
    SimilarityScore := 1, NewName := "", NewDescription := "" }

/-- The node-level effect of the merge chain: each absorbed node updates
the canonical node's embedding by the weighted average against its
current score and increments the score. -/
def mergeFoldNode (c : StoreNode) (us : List StoreNode) : StoreNode :=
  us.foldl
    (fun cc u =>
      { cc with
          embedding := calculateWeightedAverageEmbedding u.embedding 1
            cc.embedding (cc.consolidationScore : ℚ),
          consolidationScore := cc.consolidationScore + 1 })
    c

/-- A concrete embedded Stock node (test vector for the closed theorems). -/
def exStock (i : String) (emb : List ℚ) (cons : Bool) (sc : Int) : StoreNode :=
  { id := i, kind := "stock", name := i, description := "", embedding := emb,
    embedded := true, consolidated := cons, consolidationScore := sc }

/-- A similarity oracle returning the same score for every pair. -/
def simConstant (q : ℚ) : List ℚ → List ℚ → Except String ℚ := fun _ _ => Except.ok q

/-- A concrete unconsolidated DESCRIBES edge `a → b` with score 0. -/
def exDescribesAB : Edge :=
  { relType := "DESCRIBES", fromId := "a", toId := "b",
    props := { consolidated := some false, consolidationScore := some 0, question := none } }

/-- A concrete consolidated CONSTITUTES edge `a → b` with score 3. -/
def exConstitutesAB : Edge :=
  { relType := "CONSTITUTES", fromId := "a", toId := "b",
    props := { consolidated := some true, consolidationScore := some 3, question := none } }

/-- A concrete consolidated DESCRIBES_DYNAMIC edge `a → b` with score 2. -/
def exDynamicAB : Edge :=
  { relType := "DESCRIBES_DYNAMIC", fromId := "a", toId := "b",
    props := { consolidated := some true, consolidationScore := some 2, question := none } }

/-- First evidence question of the CAUSAL_LINK scenario. -/
def exQ1 : String := "Does low energy hurt focus?"

/-- Second evidence question of the CAUSAL_LINK scenario. -/
def exQ2 : String := "I cannot focus when I am tired."

/-- CAUSAL_LINK `a1 → b1` carrying question `exQ1`, never consolidated. -/
def exCausal1 : Edge :=
  { relType := "CAUSAL_LINK", fromId := "a1", toId := "b1",
    props := { consolidated := none, consolidationScore := none, question := some exQ1 } }

/-- CAUSAL_LINK `a2 → b1` carrying question `exQ2`, never consolidated. -/
def exCausal2 : Edge :=
  { relType := "CAUSAL_LINK", fromId := "a2", toId := "b1",
    props := { consolidated := none, consolidationScore := none, question := some exQ2 } }

/-- Pre-run graph of the CAUSAL_LINK scenario: `a1` and `a2` are
near-duplicate stocks, each with a causal link into `b1`. -/
def exCausalGraph : Graph :=
  { nodes := [exStock "a1" [1] false 0, exStock "a2" [1] false 0,
              exStock "b1" [-1] false 0],
    edges := [exCausal1, exCausal2] }

/-- The match list of the CAUSAL_LINK scenario (what the first-run
matcher produces for it): `a2` merges into `a1`; `a1` and `b1` are
promoted. -/
def exCausalMatches : List NodeMatch :=
  [ { UnconsolidatedID := "a2", ConsolidatedID := "a1", NodeType := "stock",
      SimilarityScore := 1, NewName := "", NewDescription := "" },
    { UnconsolidatedID := "a1", ConsolidatedID := "a1", NodeType := "stock",
      SimilarityScore := 1, NewName := "", NewDescription := "" },
    { UnconsolidatedID := "b1", ConsolidatedID := "b1", NodeType := "stock",
      SimilarityScore := 1, NewName := "", NewDescription := "" } ]

/-- Graph with two consolidated endpoints and one unconsolidated
DESCRIBES edge between them (the neither-endpoint-mapped case). -/
def exNeitherGraph : Graph :=
  { nodes := [exStock "a" [1] true 1, exStock "b" [1] true 1],
    edges := [exDescribesAB] }

/-- Graph with two *parallel* unconsolidated DESCRIBES edges between the
same two consolidated endpoints (reachable: the create-relationship
handler uses plain CREATE, not MERGE). -/
def exParallelGraph : Graph :=
  { nodes := [exStock "a" [1] true 1, exStock "b" [1] true 1],
    edges := [exDescribesAB, exDescribesAB] }

/-- Graph for the Reset scenario: one consolidated stock, a consolidated
CONSTITUTES edge, a consolidated DESCRIBES_DYNAMIC edge and an
unconsolidated DESCRIBES edge. -/
def exResetGraph : Graph :=
  { nodes := [exStock "a" [1] true 2],
    edges := [exConstitutesAB, exDynamicAB, exDescribesAB] }

/-- Merge scenario with mismatched embedding lengths: canonical `c` has
embedding `[3, 5]`, absorbed `u` has `[2]`. -/
def exMismatchGraph : Graph :=
  { nodes := [exStock "c" [3, 5] true 1, exStock "u" [2] false 0], edges := [] }

/-- The merge match of the mismatched-length scenario. -/
def exMismatchMatch : NodeMatch :=
  { UnconsolidatedID := "u", ConsolidatedID := "c", NodeType := "stock",
    SimilarityScore := 1, NewName := "", NewDescription := "" }

/-! # Theorems -/

/-! ## Dot-product lemmas -/

theorem dotProduct_cons (x : ℚ) (a : List ℚ) (y : ℚ) (b : List ℚ) :
    dotProduct (x :: a) (y :: b) = x * y + dotProduct a b := by
  simp [dotProduct]

theorem dotProduct_self_nonneg (a : List ℚ) : 0 ≤ dotProduct a a := by
  induction a with
  | nil => simp [dotProduct]
  | cons x a ih =>
    rw [dotProduct_cons]
    have hx : 0 ≤ x * x := mul_self_nonneg x
    linarith

theorem dotProduct_self_eq_zero (a : List ℚ) :
    dotProduct a a = 0 ↔ ∀ x ∈ a, x = 0 := by
  induction a with
  | nil => simp [dotProduct]
  | cons x a ih =>
    rw [dotProduct_cons]
    constructor
    · intro h
      have h1 : 0 ≤ x * x := mul_self_nonneg x
      have h2 : 0 ≤ dotProduct a a := dotProduct_self_nonneg a
      have hx : x * x = 0 := by linarith
      have hd : dotProduct a a = 0 := by linarith
      intro y hy
      rcases List.mem_cons.mp hy with h3 | h3
      · rw [h3]; exact mul_self_eq_zero.mp hx
      · exact (ih.mp hd) y h3
    · intro h
      have hx : x = 0 := h x (List.mem_cons_self x a)
      have hd : dotProduct a a = 0 := ih.mpr (fun y hy => h y (List.mem_cons_of_mem x hy))
      rw [hx, hd]; ring

theorem dotProduct_eq_sum (a : List ℚ) :
    ∀ b : List ℚ, a.length = b.length →
      dotProduct a b = ∑ i ∈ Finset.range a.length, a.getD i 0 * b.getD i 0 := by
  induction a with
  | nil => intro b h; simp [dotProduct]
  | cons x a ih =>
    intro b h
    cases b with
    | nil => simp at h
    | cons y b =>
      rw [dotProduct_cons]
      have hlen : a.length = b.length := by simpa using h
      rw [ih b hlen, List.length_cons, Finset.sum_range_succ']
      simp [add_comm]

theorem dotProduct_sq_le (a b : List ℚ) (h : a.length = b.length) :
    dotProduct a b ^ 2 ≤ dotProduct a a * dotProduct b b := by
  rw [dotProduct_eq_sum a b h, dotProduct_eq_sum a a rfl, dotProduct_eq_sum b b rfl, ← h]
  calc (∑ i ∈ Finset.range a.length, a.getD i 0 * b.getD i 0) ^ 2
      ≤ (∑ i ∈ Finset.range a.length, a.getD i 0 ^ 2) *
        ∑ i ∈ Finset.range a.length, b.getD i 0 ^ 2 :=
        Finset.sum_mul_sq_le_sq_mul_sq (Finset.range a.length)
          (fun i => a.getD i 0) (fun i => b.getD i 0)
    _ = (∑ i ∈ Finset.range a.length, a.getD i 0 * a.getD i 0) *
        ∑ i ∈ Finset.range a.length, b.getD i 0 * b.getD i 0 := by
        simp [sq]

/-- C6: for equal-length vectors the cosine similarity is in [−1, 1];
the self-similarity of a non-zero vector is 1; any similarity involving
an all-zero vector is 0 (the zero-magnitude branch returns before any
division); and mismatched lengths yield an error for that pair rather
than a coerced value.  (Floating-point arithmetic is modelled exactly:
rational inputs, real square roots.) -/
theorem c6_cosineSimilarity_spec :
    (∀ (a b : List ℚ) (r : ℝ), a.length = b.length →
        cosineSimilarity a b (Except.ok r) → -1 ≤ r ∧ r ≤ 1) ∧
    (∀ a : List ℚ, (∃ x ∈ a, x ≠ 0) → cosineSimilarity a a (Except.ok 1)) ∧
    (∀ a b : List ℚ, a.length = b.length →
        ((∀ x ∈ a, x = 0) ∨ (∀ x ∈ b, x = 0)) →
        cosineSimilarity a b (Except.ok 0)) ∧
    (∀ a b : List ℚ, a.length ≠ b.length →
        cosineSimilarity a b
          (Except.error "vectors must have the same length to calculate similarity")) := by
  refine ⟨?_, ?_, ?_, ?_⟩
  · intro a b r hlen hrel
    unfold cosineSimilarity at hrel
    rw [if_neg (by simp [hlen])] at hrel
    by_cases hz : dotProduct a a = 0 ∨ dotProduct b b = 0
    · rw [if_pos hz] at hrel
      have hr : r = 0 := by simpa using hrel
      rw [hr]; norm_num
    · rw [if_neg hz] at hrel
      have hr : r = (dotProduct a b : ℝ) /
          (Real.sqrt (dotProduct a a) * Real.sqrt (dotProduct b b)) := by
        simpa using hrel
      push_neg at hz
      obtain ⟨ha, hb⟩ := hz
      have hAq : (0:ℚ) < dotProduct a a :=
        lt_of_le_of_ne (dotProduct_self_nonneg a) (Ne.symm ha)
      have hBq : (0:ℚ) < dotProduct b b :=
        lt_of_le_of_ne (dotProduct_self_nonneg b) (Ne.symm hb)
      have hA : (0:ℝ) < ((dotProduct a a : ℚ) : ℝ) := by exact_mod_cast hAq
      have hB : (0:ℝ) < ((dotProduct b b : ℚ) : ℝ) := by exact_mod_cast hBq
      have hsq : r ^ 2 ≤ 1 := by
        rw [hr, div_pow, mul_pow, Real.sq_sqrt hA.le, Real.sq_sqrt hB.le,
          div_le_one (by positivity)]
        exact_mod_cast dotProduct_sq_le a b hlen
      have habs : |r| ≤ 1 := (sq_le_one_iff_abs_le_one r).mp hsq
      exact abs_le.mp habs
  · intro a ha
    have hne : dotProduct a a ≠ 0 := by
      rw [Ne, dotProduct_self_eq_zero]
      push_neg
      exact ha
    have hAq : (0:ℚ) < dotProduct a a :=
      lt_of_le_of_ne (dotProduct_self_nonneg a) (Ne.symm hne)
    have hA : (0:ℝ) < ((dotProduct a a : ℚ) : ℝ) := by exact_mod_cast hAq
    unfold cosineSimilarity
    rw [if_neg (by simp), if_neg (by simp [hne])]
    rw [Real.mul_self_sqrt hA.le, div_self (ne_of_gt hA)]
  · intro a b hlen hz
    unfold cosineSimilarity
    rw [if_neg (by simp [hlen])]
    have hone : dotProduct a a = 0 ∨ dotProduct b b = 0 := by
      rcases hz with h | h
      · exact Or.inl ((dotProduct_self_eq_zero a).mpr h)
      · exact Or.inr ((dotProduct_self_eq_zero b).mpr h)
    rw [if_pos hone]
  · intro a b hlen
    unfold cosineSimilarity
    rw [if_pos hlen]

theorem c6_cosineSimilarity_spec_witness :
    cosineSimilarity [3, 4] [3, 4] (Except.ok 1) :=
  c6_cosineSimilarity_spec.2.1 [3, 4] (by decide)

/-! ## First-run matcher lemmas -/

theorem findBestMatch_aux (simf : List ℚ → List ℚ → Except String ℚ)
    (node1 : StoreNode) (processed : List String) (S : List String) :
    ∀ (rest : List StoreNode) (acc : String × ℚ),
      (∀ x ∈ idsOf rest, x ∈ S) →
      (acc.1 = node1.id ∨ (acc.1 ∈ S ∧ acc.1 ∉ processed)) →
      ((rest.foldl
        (fun acc node2 =>
          if processed.contains node2.id then acc
          else
            match simf node1.embedding node2.embedding with
            | Except.error _ => acc
            | Except.ok score =>
              if similarityThreshold ≤ score ∧ acc.2 < score then (node2.id, score)
              else acc)
        acc).1 = node1.id ∨
       (((rest.foldl
        (fun acc node2 =>
          if processed.contains node2.id then acc
          else
            match simf node1.embedding node2.embedding with
            | Except.error _ => acc
            | Except.ok score =>
              if similarityThreshold ≤ score ∧ acc.2 < score then (node2.id, score)
              else acc)
        acc).1 ∈ S) ∧
        ((rest.foldl
        (fun acc node2 =>
          if processed.contains node2.id then acc
          else
            match simf node1.embedding node2.embedding with
            | Except.error _ => acc
            | Except.ok score =>
              if similarityThreshold ≤ score ∧ acc.2 < score then (node2.id, score)
              else acc)
        acc).1 ∉ processed))) := by
  intro rest
  induction rest with
  | nil => intro acc hS hacc; exact hacc
  | cons node2 rest ih =>
    intro acc hS hacc
    rw [List.foldl_cons]
    refine ih _ (fun x hx => hS x ?_) ?_
    · simp only [idsOf, List.map_cons, List.mem_cons]
      exact Or.inr (by simpa [idsOf] using hx)
    · dsimp only
      by_cases hp : processed.contains node2.id
      · rw [if_pos hp]; exact hacc
      · rw [if_neg hp]
        cases hs : simf node1.embedding node2.embedding with
        | error e => exact hacc
        | ok score =>
          dsimp only
          by_cases hcond : similarityThreshold ≤ score ∧ acc.2 < score
          · rw [if_pos hcond]
            refine Or.inr ⟨hS node2.id (by simp [idsOf]), by simpa using hp⟩
          · rw [if_neg hcond]; exact hacc

theorem findBestMatch_property (simf : List ℚ → List ℚ → Except String ℚ)
    (node1 : StoreNode) (rest : List StoreNode) (processed : List String) :
    (findBestMatch simf node1 rest processed).1 = node1.id ∨
      ((findBestMatch simf node1 rest processed).1 ∈ idsOf rest ∧
       (findBestMatch simf node1 rest processed).1 ∉ processed) := by
  unfold findBestMatch
  exact findBestMatch_aux simf node1 processed (idsOf rest) rest (node1.id, -1)
    (fun x hx => hx) (Or.inl rfl)

theorem firstRun_ids (simf : List ℚ → List ℚ → Except String ℚ) (kind : String) :
    ∀ (nodes : List StoreNode) (processed : List String),
      ∀ m ∈ findNodeMatchesFirstRun simf kind nodes processed,
        m.UnconsolidatedID ∈ idsOf nodes ∧ m.UnconsolidatedID ∉ processed := by
  intro nodes
  induction nodes with
  | nil => intro processed m hm; simp [findNodeMatchesFirstRun] at hm
  | cons node1 rest ih =>
    intro processed m hm
    rw [findNodeMatchesFirstRun] at hm
    by_cases hp : processed.contains node1.id
    · rw [if_pos hp] at hm
      obtain ⟨h1, h2⟩ := ih processed m hm
      exact ⟨by simp [idsOf] at h1 ⊢; exact Or.inr h1, h2⟩
    · rw [if_neg hp] at hm
      have hpmem : node1.id ∉ processed := by simpa using hp
      dsimp only at hm
      by_cases hb : (findBestMatch simf node1 rest processed).1 ≠ node1.id
      · rw [if_pos hb] at hm
        rcases List.mem_cons.mp hm with hm1 | hm1
        · rcases findBestMatch_property simf node1 rest processed with hcase | hcase
          · exact absurd hcase hb
          · refine ⟨?_, ?_⟩
            · rw [hm1]
              simp only [idsOf, List.map_cons, List.mem_cons]
              exact Or.inr hcase.1
            · rw [hm1]; exact hcase.2
        · rcases List.mem_cons.mp hm1 with hm2 | hm2
          · rw [hm2]
            exact ⟨by simp [idsOf], hpmem⟩
          · obtain ⟨h1, h2⟩ := ih _ m hm2
            refine ⟨by simp [idsOf] at h1 ⊢; exact Or.inr h1, ?_⟩
            intro hc
            exact h2 (by
              rw [if_pos hb]
              exact List.mem_cons_of_mem _ (List.mem_cons_of_mem _ hc))
      · rw [if_neg hb] at hm
        rcases List.mem_cons.mp hm with hm1 | hm1
        · rw [hm1]
          exact ⟨by simp [idsOf], hpmem⟩
        · obtain ⟨h1, h2⟩ := ih _ m hm1
          refine ⟨by simp [idsOf] at h1 ⊢; exact Or.inr h1, ?_⟩
          intro hc
          exact h2 (by
            rw [if_neg hb]
            exact List.mem_cons_of_mem _ hc)

theorem firstRun_nodup (simf : List ℚ → List ℚ → Except String ℚ) (kind : String) :
    ∀ (nodes : List StoreNode) (processed : List String),
      (idsOf nodes).Nodup →
      ((findNodeMatchesFirstRun simf kind nodes processed).map
        (fun m => m.UnconsolidatedID)).Nodup := by
  intro nodes
  induction nodes with
  | nil => intro processed _; simp [findNodeMatchesFirstRun]
  | cons node1 rest ih =>
    intro processed hnodup
    obtain ⟨hhead, htail⟩ :=
      List.nodup_cons.mp (show (node1.id :: idsOf rest).Nodup from hnodup)
    rw [findNodeMatchesFirstRun]
    by_cases hp : processed.contains node1.id
    · rw [if_pos hp]; exact ih processed htail
    · rw [if_neg hp]
      dsimp only
      by_cases hb : (findBestMatch simf node1 rest processed).1 ≠ node1.id
      · rw [if_pos hb]
        rw [if_pos hb]
        have hnotrec : ∀ x ∈ node1.id ::
            (findBestMatch simf node1 rest processed).1 :: processed,
            x ∉ (findNodeMatchesFirstRun simf kind rest
              (node1.id :: (findBestMatch simf node1 rest processed).1 :: processed)).map
                (fun m => m.UnconsolidatedID) := by
          intro x hx hmem
          obtain ⟨m, hm, hid⟩ := List.mem_map.mp hmem
          exact (firstRun_ids simf kind rest _ m hm).2 (hid ▸ hx)
        simp only [List.map_cons]
        refine List.nodup_cons.mpr ⟨?_, List.nodup_cons.mpr ⟨?_, ih _ htail⟩⟩
        · intro hc
          rcases List.mem_cons.mp hc with h | h
          · exact hb h
          · exact hnotrec _ (List.mem_cons_of_mem _ (List.mem_cons_self _ _)) h
        · exact hnotrec _ (List.mem_cons_self _ _)
      · rw [if_neg hb]
        rw [if_neg hb]
        have hnotrec : ∀ x ∈ node1.id :: processed,
            x ∉ (findNodeMatchesFirstRun simf kind rest
              (node1.id :: processed)).map (fun m => m.UnconsolidatedID) := by
          intro x hx hmem
          obtain ⟨m, hm, hid⟩ := List.mem_map.mp hmem
          exact (firstRun_ids simf kind rest _ m hm).2 (hid ▸ hx)
        simp only [List.map_cons]
        exact List.nodup_cons.mpr ⟨hnotrec _ (List.mem_cons_self _ _), ih _ htail⟩

theorem firstRun_coverage (simf : List ℚ → List ℚ → Except String ℚ) (kind : String) :
    ∀ (nodes : List StoreNode) (processed : List String),
      (idsOf nodes).Nodup →
      ∀ n ∈ nodes, n.id ∉ processed →
        ∃ m ∈ findNodeMatchesFirstRun simf kind nodes processed,
          m.UnconsolidatedID = n.id := by
  intro nodes
  induction nodes with
  | nil => intro processed _ n hn; simp at hn
  | cons node1 rest ih =>
    intro processed hnodup n hn hid
    obtain ⟨hhead, htail⟩ :=
      List.nodup_cons.mp (show (node1.id :: idsOf rest).Nodup from hnodup)
    rw [findNodeMatchesFirstRun]
    by_cases hp : processed.contains node1.id
    · rw [if_pos hp]
      rcases List.mem_cons.mp hn with h | h
      · exact absurd (h ▸ (by simpa using hp) : n.id ∈ processed) hid
      · exact ih processed htail n h hid
    · rw [if_neg hp]
      dsimp only
      by_cases hb : (findBestMatch simf node1 rest processed).1 ≠ node1.id
      · rw [if_pos hb]
        rw [if_pos hb]
        rcases List.mem_cons.mp hn with h | h
        · exact ⟨_, List.mem_cons_of_mem _ (List.mem_cons_self _ _), by rw [h]⟩
        · have hne1 : n.id ≠ node1.id := by
            intro hc
            exact hhead (hc ▸ List.mem_map_of_mem StoreNode.id h)
          by_cases hmid : n.id = (findBestMatch simf node1 rest processed).1
          · exact ⟨_, List.mem_cons_self _ _, hmid.symm⟩
          · have hnp : n.id ∉ node1.id ::
                (findBestMatch simf node1 rest processed).1 :: processed := by
              intro hc
              rcases List.mem_cons.mp hc with h2 | h2
              · exact hne1 h2
              rcases List.mem_cons.mp h2 with h3 | h3
              · exact hmid h3
              · exact hid h3
            obtain ⟨m, hm, hq⟩ := ih _ htail n h hnp
            exact ⟨m, List.mem_cons_of_mem _ (List.mem_cons_of_mem _ hm), hq⟩
      · rw [if_neg hb]
        rw [if_neg hb]
        rcases List.mem_cons.mp hn with h | h
        · exact ⟨_, List.mem_cons_self _ _, by rw [h]⟩
        · have hne1 : n.id ≠ node1.id := by
            intro hc
            exact hhead (hc ▸ List.mem_map_of_mem StoreNode.id h)
          have hnp : n.id ∉ node1.id :: processed := by
            intro hc
            rcases List.mem_cons.mp hc with h2 | h2
            · exact hne1 h2
            · exact hid h2
          obtain ⟨m, hm, hq⟩ := ih _ htail n h hnp
          exact ⟨m, List.mem_cons_of_mem _ hm, hq⟩

theorem firstRun_structure_shift (node1 : StoreNode) (rest : List StoreNode)
    (m : NodeMatch)
    (h : ∃ i j, ∃ hi : i < rest.length, ∃ hj : j < rest.length, i < j ∧
      (rest.get ⟨i, hi⟩).id = m.ConsolidatedID ∧
      (rest.get ⟨j, hj⟩).id = m.UnconsolidatedID) :
    ∃ i j, ∃ hi : i < (node1 :: rest).length, ∃ hj : j < (node1 :: rest).length,
      i < j ∧ ((node1 :: rest).get ⟨i, hi⟩).id = m.ConsolidatedID ∧
      ((node1 :: rest).get ⟨j, hj⟩).id = m.UnconsolidatedID := by
  obtain ⟨i, j, hi, hj, hij, h1, h2⟩ := h
  exact ⟨i + 1, j + 1, by simpa using Nat.succ_lt_succ hi,
    by simpa using Nat.succ_lt_succ hj, Nat.succ_lt_succ hij,
    by simpa using h1, by simpa using h2⟩

theorem firstRun_structure (simf : List ℚ → List ℚ → Except String ℚ) (kind : String) :
    ∀ (nodes : List StoreNode) (processed : List String),
      ∀ m ∈ findNodeMatchesFirstRun simf kind nodes processed,
        (m.ConsolidatedID = m.UnconsolidatedID ∧ m.SimilarityScore = 1) ∨
        (∃ i j, ∃ hi : i < nodes.length, ∃ hj : j < nodes.length, i < j ∧
          (nodes.get ⟨i, hi⟩).id = m.ConsolidatedID ∧
          (nodes.get ⟨j, hj⟩).id = m.UnconsolidatedID) := by
  intro nodes
  induction nodes with
  | nil => intro processed m hm; simp [findNodeMatchesFirstRun] at hm
  | cons node1 rest ih =>
    intro processed m hm
    rw [findNodeMatchesFirstRun] at hm
    by_cases hp : processed.contains node1.id
    · rw [if_pos hp] at hm
      rcases ih processed m hm with h | h
      · exact Or.inl h
      · exact Or.inr (firstRun_structure_shift node1 rest m h)
    · rw [if_neg hp] at hm
      dsimp only at hm
      by_cases hb : (findBestMatch simf node1 rest processed).1 ≠ node1.id
      · rw [if_pos hb] at hm
        rw [if_pos hb] at hm
        rcases List.mem_cons.mp hm with h | h
        · rcases findBestMatch_property simf node1 rest processed with hc | ⟨hmem, _⟩
          · exact absurd hc hb
          · obtain ⟨u, hu, hid⟩ := List.mem_map.mp hmem
            obtain ⟨⟨j, hj⟩, hget⟩ := List.mem_iff_get.mp hu
            refine Or.inr ⟨0, j + 1, by simp, by simpa using Nat.succ_lt_succ hj,
              Nat.succ_pos j, ?_, ?_⟩
            · simp [h]
            · simp only [h, List.get_cons_succ]
              exact hget ▸ hid
        · rcases List.mem_cons.mp h with h2 | h2
          · rw [h2]; exact Or.inl ⟨rfl, rfl⟩
          · rcases ih _ m h2 with h3 | h3
            · exact Or.inl h3
            · exact Or.inr (firstRun_structure_shift node1 rest m h3)
      · rw [if_neg hb] at hm
        rw [if_neg hb] at hm
        rcases List.mem_cons.mp hm with h | h
        · rw [h]; exact Or.inl ⟨rfl, rfl⟩
        · rcases ih _ m h with h3 | h3
          · exact Or.inl h3
          · exact Or.inr (firstRun_structure_shift node1 rest m h3)

/-- C10: in bootstrap mode the matcher emits exactly one entry per
embedded unconsolidated node of the kind (coverage + no duplicate
entries + no spurious entries), and each entry is either a
self-promotion recorded with similarity 1.0 or a merge into a node that
occurs strictly earlier in input order; in particular no node of the
kind leaves the matching phase without a match entry.  Stated for an
arbitrary similarity oracle, hence in particular for cosine
similarity. -/
theorem c10_firstRun_total_matching (simf : List ℚ → List ℚ → Except String ℚ)
    (kind : String) (nodes : List StoreNode) (hnodup : (idsOf nodes).Nodup) :
    (∀ n ∈ nodes, ∃ m ∈ findNodeMatchesFirstRun simf kind nodes [],
        m.UnconsolidatedID = n.id) ∧
    ((findNodeMatchesFirstRun simf kind nodes []).map
       (fun m => m.UnconsolidatedID)).Nodup ∧
    (∀ m ∈ findNodeMatchesFirstRun simf kind nodes [],
       m.UnconsolidatedID ∈ idsOf nodes) ∧
    (∀ m ∈ findNodeMatchesFirstRun simf kind nodes [],
       (m.ConsolidatedID = m.UnconsolidatedID ∧ m.SimilarityScore = 1) ∨
       (∃ i j, ∃ hi : i < nodes.length, ∃ hj : j < nodes.length, i < j ∧
          (nodes.get ⟨i, hi⟩).id = m.ConsolidatedID ∧
          (nodes.get ⟨j, hj⟩).id = m.UnconsolidatedID)) :=
  ⟨fun n hn => firstRun_coverage simf kind nodes [] hnodup n hn (by simp),
   firstRun_nodup simf kind nodes [] hnodup,
   fun m hm => (firstRun_ids simf kind nodes [] m hm).1,
   fun m hm => firstRun_structure simf kind nodes [] m hm⟩

theorem c10_firstRun_total_matching_witness :
    (∀ n ∈ [exStock "a" [1] false 0, exStock "b" [1] false 0],
      ∃ m ∈ findNodeMatchesFirstRun (simConstant (7/10)) "stock"
        [exStock "a" [1] false 0, exStock "b" [1] false 0] [],
        m.UnconsolidatedID = n.id) ∧
    ((findNodeMatchesFirstRun (simConstant (7/10)) "stock"
        [exStock "a" [1] false 0, exStock "b" [1] false 0] []).map
      (fun m => m.UnconsolidatedID)).Nodup :=
  ⟨(c10_firstRun_total_matching (simConstant (7/10)) "stock"
      [exStock "a" [1] false 0, exStock "b" [1] false 0] (by decide)).1,
   (c10_firstRun_total_matching (simConstant (7/10)) "stock"
      [exStock "a" [1] false 0, exStock "b" [1] false 0] (by decide)).2.1⟩

/-! ## Node-phase lemmas -/

theorem getNode_ok (g : Graph) (nodeID nodeType : String) (n : StoreNode)
    (hvalid : validNodeType nodeType = true)
    (hfind : findNode g nodeID nodeType = some n) :
    getNodeEmbeddingAndScore g nodeID nodeType =
      Except.ok (n.embedding, n.consolidationScore) := by
  unfold getNodeEmbeddingAndScore
  rw [if_pos hvalid, hfind]

theorem mergeIntoConsolidatedNode_eq (g : Graph) (m : NodeMatch) (u c : StoreNode)
    (hvalid : validNodeType m.NodeType = true)
    (hfu : findNode g m.UnconsolidatedID m.NodeType = some u)
    (hfc : findNode g m.ConsolidatedID m.NodeType = some c) :
    mergeIntoConsolidatedNode g m = Except.ok
      { nodes := (g.nodes.map (updateConsolidatedNode m
          (calculateWeightedAverageEmbedding u.embedding 1 c.embedding
            (c.consolidationScore : ℚ)))).filter
          (fun n => n.id ≠ m.UnconsolidatedID),
        edges := ((g.edges.filter (fun e =>
            e.fromId == m.UnconsolidatedID || e.toId == m.UnconsolidatedID)).foldl
          (transferStep m.UnconsolidatedID m.ConsolidatedID) g.edges).filter
          (fun e => e.fromId ≠ m.UnconsolidatedID ∧ e.toId ≠ m.UnconsolidatedID) } := by
  unfold mergeIntoConsolidatedNode
  rw [getNode_ok g _ _ u hvalid hfu, getNode_ok g _ _ c hvalid hfc]

theorem consolidateNodes_cons_merge (c u : StoreNode) (us : List StoreNode)
    (edges : List Edge) (ms : List NodeMatch)
    (hvalid : validNodeType c.kind = true)
    (hukind : u.kind = c.kind)
    (huc : u.id ≠ c.id)
    (hunotin : u.id ∉ us.map StoreNode.id)
    (husne : ∀ x ∈ us, x.id ≠ c.id) :
    consolidateNodes { nodes := c :: u :: us, edges := edges }
      (mergeMatchFor c.id c.kind u :: ms) =
    consolidateNodes
      { nodes := { c with
          embedding := calculateWeightedAverageEmbedding u.embedding 1 c.embedding
            (c.consolidationScore : ℚ),
          consolidationScore := c.consolidationScore + 1 } :: us,
        edges := ((edges.filter (fun e =>
            e.fromId == u.id || e.toId == u.id)).foldl
          (transferStep u.id c.id) edges).filter
          (fun e => e.fromId ≠ u.id ∧ e.toId ≠ u.id) } ms := by
  have hbeq : (u.id == c.id) = false := beq_eq_false_iff_ne.mpr huc
  have hfu : findNode { nodes := c :: u :: us, edges := edges } u.id c.kind = some u := by
    unfold findNode
    rw [List.find?_cons_of_neg _ (by simp [Ne.symm huc]),
      List.find?_cons_of_pos _ (by simp [hukind])]
  have hfc : findNode { nodes := c :: u :: us, edges := edges } c.id c.kind = some c := by
    unfold findNode
    rw [List.find?_cons_of_pos _ (by simp)]
  have hmerge := mergeIntoConsolidatedNode_eq { nodes := c :: u :: us, edges := edges }
    (mergeMatchFor c.id c.kind u) u c hvalid hfu hfc
  unfold consolidateNodes
  rw [List.foldl_cons]
  congr 1
  dsimp only
  rw [if_neg (by simp [mergeMatchFor, hbeq])]
  rw [hmerge]
  dsimp only [mergeMatchFor]
  congr 1
  rw [List.map_cons, List.map_cons]
  rw [show updateConsolidatedNode ⟨u.id, c.id, c.kind, 1, "", ""⟩
      (calculateWeightedAverageEmbedding u.embedding 1 c.embedding
        (c.consolidationScore : ℚ)) c =
      { c with
          embedding := calculateWeightedAverageEmbedding u.embedding 1 c.embedding
            (c.consolidationScore : ℚ),
          consolidationScore := c.consolidationScore + 1 } from by
    simp [updateConsolidatedNode]]
  rw [show updateConsolidatedNode ⟨u.id, c.id, c.kind, 1, "", ""⟩
      (calculateWeightedAverageEmbedding u.embedding 1 c.embedding
        (c.consolidationScore : ℚ)) u = u from by
    simp [updateConsolidatedNode, hbeq]]
  rw [show us.map (updateConsolidatedNode ⟨u.id, c.id, c.kind, 1, "", ""⟩
      (calculateWeightedAverageEmbedding u.embedding 1 c.embedding
        (c.consolidationScore : ℚ))) = us from by
    refine (List.map_congr_left ?_).trans (List.map_id us)
    intro x hx
    simp [updateConsolidatedNode, beq_eq_false_iff_ne.mpr (husne x hx)]]
  rw [List.filter_cons_of_pos (by simp [Ne.symm huc]),
    List.filter_cons_of_neg (by simp),
    show us.filter (fun n => n.id ≠ u.id) = us from by
      rw [List.filter_eq_self]
      intro x hx
      have hxu : x.id ≠ u.id := fun hcc =>
        hunotin (hcc ▸ List.mem_map_of_mem StoreNode.id hx)
      simp [hxu]]

theorem consolidateNodes_merge_chain :
    ∀ (us : List StoreNode) (c : StoreNode) (edges : List Edge),
      validNodeType c.kind = true →
      (∀ u ∈ us, u.kind = c.kind) →
      (∀ u ∈ us, u.id ≠ c.id) →
      (us.map StoreNode.id).Nodup →
      ∃ edges2,
        consolidateNodes { nodes := c :: us, edges := edges }
          (us.map (mergeMatchFor c.id c.kind)) =
          { nodes := [mergeFoldNode c us], edges := edges2 } := by
  intro us
  induction us with
  | nil =>
    intro c edges _ _ _ _
    exact ⟨edges, rfl⟩
  | cons u us ih =>
    intro c edges hvalid hkind hne hnodup
    have huc : u.id ≠ c.id := hne u (List.mem_cons_self u us)
    have hukind : u.kind = c.kind := hkind u (List.mem_cons_self u us)
    obtain ⟨hunotin, hnodup2⟩ := List.nodup_cons.mp hnodup
    rw [List.map_cons]
    rw [consolidateNodes_cons_merge c u us edges _ hvalid hukind huc hunotin
      (fun x hx => hne x (List.mem_cons_of_mem u hx))]
    obtain ⟨edges3, hrest⟩ := ih
      { c with
          embedding := calculateWeightedAverageEmbedding u.embedding 1 c.embedding
            (c.consolidationScore : ℚ),
          consolidationScore := c.consolidationScore + 1 }
      (((edges.filter (fun e =>
          e.fromId == u.id || e.toId == u.id)).foldl
        (transferStep u.id c.id) edges).filter
        (fun e => e.fromId ≠ u.id ∧ e.toId ≠ u.id))
      hvalid
      (fun x hx => hkind x (List.mem_cons_of_mem u hx))
      (fun x hx => hne x (List.mem_cons_of_mem u hx))
      hnodup2
    refine ⟨edges3, ?_⟩
    rw [show mergeFoldNode c (u :: us) = mergeFoldNode
      { c with
          embedding := calculateWeightedAverageEmbedding u.embedding 1 c.embedding
            (c.consolidationScore : ℚ),
          consolidationScore := c.consolidationScore + 1 } us from rfl]
    exact hrest

theorem mergeFoldNode_score :
    ∀ (us : List StoreNode) (c : StoreNode),
      (mergeFoldNode c us).consolidationScore = c.consolidationScore + us.length := by
  intro us
  induction us with
  | nil => intro c; simp [mergeFoldNode]
  | cons u us ih =>
    intro c
    rw [show mergeFoldNode c (u :: us) = mergeFoldNode
      { c with
          embedding := calculateWeightedAverageEmbedding u.embedding 1 c.embedding
            (c.consolidationScore : ℚ),
          consolidationScore := c.consolidationScore + 1 } us from rfl]
    rw [ih]
    push_cast [List.length_cons]
    ring

/-- C8: a promotion sets the consolidation score to exactly 1 (never an
increment), and merging k nodes one by one into a canonical node whose
score starts at 1 leaves the surviving canonical node with score
1 + k. -/
theorem c8_sequential_merge_scores :
    (∀ (g g2 : Graph) (nodeID nodeType : String),
        promoteNodeToConsolidated g nodeID nodeType = Except.ok g2 →
        ∀ n ∈ g2.nodes, n.id = nodeID → n.kind = nodeType →
          n.consolidationScore = 1) ∧
    (∀ (c : StoreNode) (us : List StoreNode) (edges : List Edge),
        validNodeType c.kind = true →
        (∀ u ∈ us, u.kind = c.kind) →
        (∀ u ∈ us, u.id ≠ c.id) →
        (us.map StoreNode.id).Nodup →
        c.consolidationScore = 1 →
        ∃ (c2 : StoreNode) (edges2 : List Edge),
          consolidateNodes { nodes := c :: us, edges := edges }
            (us.map (mergeMatchFor c.id c.kind)) =
            { nodes := [c2], edges := edges2 } ∧
          c2.consolidationScore = 1 + us.length) := by
  constructor
  · intro g g2 nodeID nodeType hp n hn hid hkind
    unfold promoteNodeToConsolidated at hp
    by_cases hv : validNodeType nodeType = true
    · rw [if_pos hv] at hp
      injection hp with hp
      rw [← hp] at hn
      obtain ⟨x, hx, hfx⟩ := List.mem_map.mp hn
      by_cases hcond : (x.id == nodeID && x.kind == nodeType) = true
      · rw [if_pos hcond] at hfx
        rw [← hfx]
      · rw [if_neg hcond] at hfx
        rw [← hfx] at hid hkind
        simp [hid, hkind] at hcond
    · rw [if_neg hv] at hp
      exact absurd hp (by simp)
  · intro c us edges hvalid hkind hne hnodup hscore
    obtain ⟨edges2, heq⟩ := consolidateNodes_merge_chain us c edges hvalid hkind hne hnodup
    refine ⟨mergeFoldNode c us, edges2, heq, ?_⟩
    rw [mergeFoldNode_score us c, hscore]

theorem c8_sequential_merge_scores_witness :
    ∃ (c2 : StoreNode) (edges2 : List Edge),
      consolidateNodes
        { nodes := [exStock "c" [1] true 1, exStock "u1" [1] false 0,
            exStock "u2" [1] false 0], edges := [] }
        ([exStock "u1" [1] false 0, exStock "u2" [1] false 0].map
          (mergeMatchFor (exStock "c" [1] true 1).id (exStock "c" [1] true 1).kind)) =
        { nodes := [c2], edges := edges2 } ∧
      c2.consolidationScore = 1 + 2 :=
  c8_sequential_merge_scores.2 (exStock "c" [1] true 1)
    [exStock "u1" [1] false 0, exStock "u2" [1] false 0] []
    (by decide) (by decide) (by decide) (by decide) (by decide)

/-- C2 counterexample: at a concrete merge whose embeddings have
mismatched lengths the canonical node ends with the *absorbed* node's
embedding `[2]`, not its own original `[3, 5]` — contradicting the
claim that the canonical embedding E_c is kept. -/
theorem c2_embedding_mismatch_counterexample :
    (mergeIntoConsolidatedNode exMismatchGraph exMismatchMatch).map
      (fun g => g.nodes.map (fun n => (n.id, n.embedding, n.consolidationScore))) =
      Except.ok [("c", [2], 2)] ∧ ([2] : List ℚ) ≠ [3, 5] := by
  constructor
  · rfl
  · decide

/-- C2 (corrected): when the absorbed and canonical embeddings have
different lengths the elementwise update is skipped, but the canonical
node's embedding is *replaced by the absorbed node's embedding* (the
helper returns its first argument), not kept; the score increment, the
relationship-transfer fold and the deletion of the absorbed node still
execute. -/
theorem c2_embedding_mismatch_keeps_absorbed (g : Graph) (m : NodeMatch)
    (u c : StoreNode)
    (hvalid : validNodeType m.NodeType = true)
    (hfu : findNode g m.UnconsolidatedID m.NodeType = some u)
    (hfc : findNode g m.ConsolidatedID m.NodeType = some c)
    (hlen : u.embedding.length ≠ c.embedding.length)
    (hne : m.ConsolidatedID ≠ m.UnconsolidatedID) :
    ∃ g2, mergeIntoConsolidatedNode g m = Except.ok g2 ∧
      ({ c with
          embedding := u.embedding,
          consolidationScore := c.consolidationScore + 1,
          name := if m.NewName ≠ "" then m.NewName else c.name,
          description := if m.NewDescription ≠ "" then m.NewDescription
            else c.description } ∈ g2.nodes) ∧
      (∀ n ∈ g2.nodes, n.id ≠ m.UnconsolidatedID) ∧
      g2.edges = ((g.edges.filter (fun e =>
          e.fromId == m.UnconsolidatedID || e.toId == m.UnconsolidatedID)).foldl
        (transferStep m.UnconsolidatedID m.ConsolidatedID) g.edges).filter
        (fun e => e.fromId ≠ m.UnconsolidatedID ∧ e.toId ≠ m.UnconsolidatedID) := by
  have hcid : c.id = m.ConsolidatedID ∧ c.kind = m.NodeType := by
    have := List.find?_some hfc
    simpa using this
  have hcin : c ∈ g.nodes := List.mem_of_find?_eq_some hfc
  have hwavg : calculateWeightedAverageEmbedding u.embedding 1 c.embedding
      (c.consolidationScore : ℚ) = u.embedding := by
    unfold calculateWeightedAverageEmbedding
    rw [if_pos hlen]
  refine ⟨_, mergeIntoConsolidatedNode_eq g m u c hvalid hfu hfc, ?_, ?_, rfl⟩
  · rw [List.mem_filter]
    constructor
    · have : updateConsolidatedNode m (calculateWeightedAverageEmbedding u.embedding 1
          c.embedding (c.consolidationScore : ℚ)) c =
          { c with
              embedding := u.embedding,
              consolidationScore := c.consolidationScore + 1,
              name := if m.NewName ≠ "" then m.NewName else c.name,
              description := if m.NewDescription ≠ "" then m.NewDescription
                else c.description } := by
        unfold updateConsolidatedNode
        rw [if_pos (by simp [hcid.1, hcid.2]), hwavg]
      exact this ▸ List.mem_map_of_mem _ hcin
    · simp only [decide_eq_true_eq]
      show c.id ≠ m.UnconsolidatedID
      rw [hcid.1]
      exact hne
  · intro n hn
    have := (List.mem_filter.mp hn).2
    simpa using this

/-! ## Vector lemmas for the weighted-average embedding -/

theorem wavg_eq_zipWith (e1 : List ℚ) (w1 : ℚ) (e2 : List ℚ) (w2 : ℚ)
    (h : e1.length = e2.length) :
    calculateWeightedAverageEmbedding e1 w1 e2 w2 =
      List.zipWith (fun x y => (x * w1 + y * w2) / (w1 + w2)) e1 e2 := by
  unfold calculateWeightedAverageEmbedding
  rw [if_neg (by simp [h])]

theorem wavg_length (e1 : List ℚ) (w1 : ℚ) (e2 : List ℚ) (w2 : ℚ)
    (h : e1.length = e2.length) :
    (calculateWeightedAverageEmbedding e1 w1 e2 w2).length = e2.length := by
  rw [wavg_eq_zipWith e1 w1 e2 w2 h, List.length_zipWith, h, min_self]

theorem smulVec_one (v : List ℚ) : smulVec 1 v = v := by
  simp [smulVec]

theorem smulVec_smulVec (a b : ℚ) (v : List ℚ) :
    smulVec a (smulVec b v) = smulVec (a * b) v := by
  apply List.ext_getElem
  · simp [smulVec]
  · intro i h1 h2
    simp [smulVec, mul_assoc]

theorem smulVec_wavg (u e : List ℚ) (s : ℚ) (hs : 1 + s ≠ 0)
    (hlen : u.length = e.length) :
    smulVec (s + 1) (calculateWeightedAverageEmbedding u 1 e s) =
      addVec (smulVec s e) u := by
  rw [wavg_eq_zipWith u 1 e s hlen]
  apply List.ext_getElem
  · simp [smulVec, addVec, hlen]
  · intro i h1 h2
    simp only [smulVec, addVec, List.getElem_map, List.getElem_zipWith]
    field_simp
    ring

theorem mergeFoldNode_embedding :
    ∀ (us : List StoreNode) (c : StoreNode),
      1 ≤ c.consolidationScore →
      (∀ u ∈ us, u.embedding.length = c.embedding.length) →
      (mergeFoldNode c us).embedding =
        smulVec (1 / ((c.consolidationScore : ℚ) + us.length))
          (weightedSum (smulVec (c.consolidationScore : ℚ) c.embedding)
            (us.map StoreNode.embedding)) := by
  intro us
  induction us with
  | nil =>
    intro c hs _
    have h0 : (0:ℤ) < c.consolidationScore := lt_of_lt_of_le zero_lt_one hs
    have hsne : (c.consolidationScore : ℚ) ≠ 0 := by exact_mod_cast ne_of_gt h0
    rw [show mergeFoldNode c [] = c from rfl, List.map_nil,
      show weightedSum (smulVec (c.consolidationScore : ℚ) c.embedding) [] =
        smulVec (c.consolidationScore : ℚ) c.embedding from rfl,
      smulVec_smulVec, List.length_nil, Nat.cast_zero, add_zero,
      one_div_mul_cancel hsne, smulVec_one]
  | cons u us ih =>
    intro c hs hlen
    have hul : u.embedding.length = c.embedding.length :=
      hlen u (List.mem_cons_self u us)
    have h0 : (0:ℤ) < c.consolidationScore := lt_of_lt_of_le zero_lt_one hs
    have h0q : (0:ℚ) < (c.consolidationScore : ℚ) := by exact_mod_cast h0
    have hsq : 1 + (c.consolidationScore : ℚ) ≠ 0 := by
      have : (0:ℚ) < 1 + (c.consolidationScore : ℚ) := by linarith
      exact ne_of_gt this
    rw [show mergeFoldNode c (u :: us) = mergeFoldNode
      { c with
          embedding := calculateWeightedAverageEmbedding u.embedding 1 c.embedding
            (c.consolidationScore : ℚ),
          consolidationScore := c.consolidationScore + 1 } us from rfl]
    rw [ih
      { c with
          embedding := calculateWeightedAverageEmbedding u.embedding 1 c.embedding
            (c.consolidationScore : ℚ),
          consolidationScore := c.consolidationScore + 1 }
      (by simp; omega)
      (by
        intro x hx
        rw [hlen x (List.mem_cons_of_mem u hx)]
        exact (wavg_length u.embedding 1 c.embedding (c.consolidationScore : ℚ) hul).symm)]
    rw [List.map_cons, List.length_cons]
    rw [show weightedSum (smulVec (c.consolidationScore : ℚ) c.embedding)
        (u.embedding :: us.map StoreNode.embedding) =
      weightedSum (addVec (smulVec (c.consolidationScore : ℚ) c.embedding) u.embedding)
        (us.map StoreNode.embedding) from rfl]
    rw [← smulVec_wavg u.embedding c.embedding (c.consolidationScore : ℚ) hsq hul]
    congr 1
    · push_cast
      ring
    · congr 1
      congr 1
      push_cast
      ring

/-- C9: each merge computes the canonical embedding as the elementwise
weighted average (E_c·S_c + E_u·1) / (S_c + 1) of the two embeddings,
and after k sequential unit-weight merges into a canonical node of
initial score 1 the surviving embedding equals the single equal-weight
average of all k+1 original embeddings — exactly, over the exact
rational arithmetic this development uses for floats. -/
theorem c9_weighted_average_embedding :
    (∀ (eu ec : List ℚ) (s : ℚ), eu.length = ec.length →
        calculateWeightedAverageEmbedding eu 1 ec s =
          List.zipWith (fun x y => (y * s + x * 1) / (s + 1)) eu ec) ∧
    (∀ (c : StoreNode) (us : List StoreNode) (edges : List Edge),
        validNodeType c.kind = true →
        (∀ u ∈ us, u.kind = c.kind) →
        (∀ u ∈ us, u.id ≠ c.id) →
        (us.map StoreNode.id).Nodup →
        c.consolidationScore = 1 →
        (∀ u ∈ us, u.embedding.length = c.embedding.length) →
        ∃ (c2 : StoreNode) (edges2 : List Edge),
          consolidateNodes { nodes := c :: us, edges := edges }
            (us.map (mergeMatchFor c.id c.kind)) =
            { nodes := [c2], edges := edges2 } ∧
          c2.embedding = smulVec (1 / ((us.length : ℚ) + 1))
            (weightedSum c.embedding (us.map StoreNode.embedding))) := by
  constructor
  · intro eu ec s h
    rw [wavg_eq_zipWith eu 1 ec s h]
    apply List.ext_getElem
    · simp
    · intro i h1 h2
      simp only [List.getElem_zipWith]
      ring
  · intro c us edges hvalid hkind hne hnodup hscore hlen
    obtain ⟨edges2, heq⟩ := consolidateNodes_merge_chain us c edges hvalid hkind hne hnodup
    refine ⟨mergeFoldNode c us, edges2, heq, ?_⟩
    rw [mergeFoldNode_embedding us c (by rw [hscore]) hlen, hscore]
    rw [show ((1:ℤ) : ℚ) = 1 from by norm_num, smulVec_one]
    congr 1
    ring

theorem c9_weighted_average_embedding_witness :
    ∃ (c2 : StoreNode) (edges2 : List Edge),
      consolidateNodes
        { nodes := [exStock "c" [1, 1] true 1, exStock "u1" [3, 1] false 0,
            exStock "u2" [5, 7] false 0], edges := [] }
        ([exStock "u1" [3, 1] false 0, exStock "u2" [5, 7] false 0].map
          (mergeMatchFor (exStock "c" [1, 1] true 1).id
            (exStock "c" [1, 1] true 1).kind)) =
        { nodes := [c2], edges := edges2 } ∧
      c2.embedding = smulVec (1 / (([exStock "u1" [3, 1] false 0,
          exStock "u2" [5, 7] false 0].length : ℚ) + 1))
        (weightedSum (exStock "c" [1, 1] true 1).embedding
          ([exStock "u1" [3, 1] false 0, exStock "u2" [5, 7] false 0].map
            StoreNode.embedding)) :=
  c9_weighted_average_embedding.2 (exStock "c" [1, 1] true 1)
    [exStock "u1" [3, 1] false 0, exStock "u2" [5, 7] false 0] []
    (by decide) (by decide) (by decide) (by decide) (by decide) (by decide)

/-! ## Rewiring lemmas -/

theorem setConsolidatedInPlace_triple (rel : RelationshipConsolidation) (e : Edge) :
    tripleOf (setConsolidatedInPlace rel e) = tripleOf e := by
  unfold setConsolidatedInPlace
  split <;> rfl

theorem pairwise_triples_map (f : Edge → Edge)
    (hf : ∀ e, tripleOf (f e) = tripleOf e) (l : List Edge)
    (hl : l.Pairwise (fun e1 e2 => ¬sameTriple e1 e2)) :
    (l.map f).Pairwise (fun e1 e2 => ¬sameTriple e1 e2) := by
  rw [List.pairwise_map]
  refine hl.imp ?_
  intro a b hab hsame
  apply hab
  unfold sameTriple at hsame ⊢
  rw [← hf a, ← hf b]
  exact hsame

theorem processRel_pairwise (nodeMapping : String → Option String)
    (g : Graph) (rel : RelationshipConsolidation)
    (h : g.edges.Pairwise (fun e1 e2 => ¬sameTriple e1 e2)) :
    (processRelationshipConsolidation nodeMapping g rel).edges.Pairwise
      (fun e1 e2 => ¬sameTriple e1 e2) := by
  unfold processRelationshipConsolidation
  dsimp only
  split
  · exact pairwise_triples_map _ (fun e => setConsolidatedInPlace_triple rel e) _ h
  · have hg1 : ∀ gmid : Graph,
        gmid.edges.Pairwise (fun e1 e2 => ¬sameTriple e1 e2) →
        ∀ changedCase : Prop, ∀ inst : Decidable changedCase,
        (if changedCase then
          { gmid with edges := gmid.edges.filter (fun e =>
            !(e.relType == rel.RelationType && e.fromId == rel.FromID &&
              e.toId == rel.ToID)) }
         else gmid).edges.Pairwise (fun e1 e2 => ¬sameTriple e1 e2) := by
      intro gmid hmid changedCase inst
      split
      · exact List.Pairwise.sublist (List.filter_sublist _) hmid
      · exact hmid
    apply hg1
    split
    · split
      · refine pairwise_triples_map _ ?_ _ h
        intro e
        dsimp only
        split <;> rfl
      · rw [List.pairwise_append]
        refine ⟨h, List.pairwise_singleton _ _, ?_⟩
        intro a ha b hb hsame
        next hedge =>
        have hb2 : b =
            { relType := rel.RelationType,
              fromId := (nodeMapping rel.FromID).getD rel.FromID,
              toId := (nodeMapping rel.ToID).getD rel.ToID,
              props :=
                { consolidated := some true, consolidationScore := some 1,
                  question := none } } := by
          simpa using hb
        rw [hb2] at hsame
        unfold sameTriple tripleOf at hsame
        simp only [Prod.mk.injEq] at hsame
        apply hedge
        rw [List.any_eq_true]
        refine ⟨a, ha, ?_⟩
        simp [hsame.1, hsame.2.1, hsame.2.2]
    · exact h

theorem foldRel_pairwise (nodeMapping : String → Option String) :
    ∀ (rels : List RelationshipConsolidation) (g : Graph),
      g.edges.Pairwise (fun e1 e2 => ¬sameTriple e1 e2) →
      (rels.foldl (processRelationshipConsolidation nodeMapping) g).edges.Pairwise
        (fun e1 e2 => ¬sameTriple e1 e2) := by
  intro rels
  induction rels with
  | nil => intro g h; exact h
  | cons rel rels ih =>
    intro g h
    rw [List.foldl_cons]
    exact ih _ (processRel_pairwise nodeMapping g rel h)

/-- C7 (corrected): the rewiring phase preserves at-most-one-edge-per
(type, from, to) triple: if the graph entering the phase has no two
parallel edges occupying the same triple, then after the phase no two
edges (in particular no two consolidated edges of a scored type) occupy
the same (type, canonicalFrom, canonicalTo) triple.  The unqualified
claim fails because parallel duplicate edges are reachable (plain
CREATE in the handlers) and the neither-endpoint-mapped case flags them
in place. -/
theorem c7_no_duplicate_canonical_edges (g : Graph) (ms : List NodeMatch)
    (h : g.edges.Pairwise (fun e1 e2 => ¬sameTriple e1 e2)) :
    (consolidateRelationships g ms).edges.Pairwise
      (fun e1 e2 => ¬sameTriple e1 e2) := by
  unfold consolidateRelationships
  exact foldRel_pairwise (buildNodeMapping ms) _ g h

theorem c7_no_duplicate_canonical_edges_witness :
    (consolidateRelationships exNeitherGraph []).edges.Pairwise
      (fun e1 e2 => ¬sameTriple e1 e2) :=
  c7_no_duplicate_canonical_edges exNeitherGraph [] (by simp [exNeitherGraph])

/-- C7 counterexample: two parallel unconsolidated DESCRIBES edges
between the same pair of long-lived nodes — reachable, since the
create-relationship handlers use plain CREATE — are each flagged
consolidated in place by the rewiring, leaving two consolidated
DESCRIBES edges on the same (type, canonicalFrom, canonicalTo) triple,
against the claimed invariant. -/
theorem c7_duplicate_edges_counterexample :
    ((consolidateRelationships exParallelGraph []).edges.filter
      (fun e => e.relType == "DESCRIBES" && e.fromId == "a" && e.toId == "b" &&
        e.props.consolidated == some true)).length = 2 := by
  rfl

/-- C3 counterexample: with the empty match list (no endpoint mapped)
the rewiring sets the DESCRIBES edge's consolidationScore from `some 0`
to `some 1` — it does not leave the score unchanged as the claim
states. -/
theorem c3_score_not_unchanged_counterexample :
    (consolidateRelationships exNeitherGraph []).edges.map
        (fun e => e.props.consolidationScore) = [some 1] ∧
    exNeitherGraph.edges.map (fun e => e.props.consolidationScore) = [some 0] ∧
    (some 1 : Option Int) ≠ some 0 := by
  exact ⟨rfl, rfl, by decide⟩

/-- C3 (corrected): when neither endpoint of a relationship resolves
through the NodeMatch map, the rewiring step touches no node, keeps
every edge's type and endpoints (and question) unchanged and leaves
non-matching edges entirely unchanged, but on the edges at the original
triple it sets both consolidated = true *and* consolidationScore = 1 —
the score is written to 1, not left untouched. -/
theorem c3_neither_endpoint_flag_in_place (nodeMapping : String → Option String)
    (g : Graph) (rel : RelationshipConsolidation)
    (hfrom : nodeMapping rel.FromID = none)
    (hto : nodeMapping rel.ToID = none) :
    (processRelationshipConsolidation nodeMapping g rel).nodes = g.nodes ∧
    (processRelationshipConsolidation nodeMapping g rel).edges =
      g.edges.map (setConsolidatedInPlace rel) ∧
    (∀ e : Edge, (setConsolidatedInPlace rel e).relType = e.relType ∧
      (setConsolidatedInPlace rel e).fromId = e.fromId ∧
      (setConsolidatedInPlace rel e).toId = e.toId ∧
      (setConsolidatedInPlace rel e).props.question = e.props.question) ∧
    (∀ e : Edge, ¬(e.relType = rel.RelationType ∧ e.fromId = rel.FromID ∧
        e.toId = rel.ToID) → setConsolidatedInPlace rel e = e) ∧
    (∀ e : Edge, (e.relType = rel.RelationType ∧ e.fromId = rel.FromID ∧
        e.toId = rel.ToID) →
      (setConsolidatedInPlace rel e).props.consolidated = some true ∧
      (setConsolidatedInPlace rel e).props.consolidationScore = some 1) := by
  have hcase : processRelationshipConsolidation nodeMapping g rel =
      { g with edges := g.edges.map (setConsolidatedInPlace rel) } := by
    unfold processRelationshipConsolidation
    dsimp only
    rw [if_pos (by simp [hfrom, hto])]
  refine ⟨by rw [hcase], by rw [hcase], ?_, ?_, ?_⟩
  · intro e
    unfold setConsolidatedInPlace
    split <;> exact ⟨rfl, rfl, rfl, rfl⟩
  · intro e he
    unfold setConsolidatedInPlace
    rw [if_neg]
    simp only [Bool.and_eq_true, beq_iff_eq]
    intro hc
    exact he ⟨hc.1.1, hc.1.2, hc.2⟩
  · intro e he
    unfold setConsolidatedInPlace
    rw [if_pos (by simp [he.1, he.2.1, he.2.2])]
    exact ⟨rfl, rfl⟩

theorem c3_neither_endpoint_flag_in_place_witness :
    (processRelationshipConsolidation (fun _ => none) exNeitherGraph
        { RelationType := "DESCRIBES", FromID := "a", ToID := "b" }).edges =
      exNeitherGraph.edges.map (setConsolidatedInPlace
        { RelationType := "DESCRIBES", FromID := "a", ToID := "b" }) :=
  (c3_neither_endpoint_flag_in_place (fun _ => none) exNeitherGraph
    { RelationType := "DESCRIBES", FromID := "a", ToID := "b" } rfl rfl).2.1

/-- C1: the code has no evidence-accumulation path for CAUSAL_LINK —
running the full pipeline on the documented two-causal-links scenario
(a2 merges into a1, both links pointing at b1) leaves exactly one
CAUSAL_LINK edge whose question property is still only the first
question, with a consolidationScore set to 1; the second question is
dropped from the graph entirely and no questions list is ever
created. -/
theorem c1_causal_link_evidence_dropped :
    (consolidateGraphFromMatches "key" (fun _ => SynthOutcome.networkFailed)
        exCausalGraph exCausalMatches).map Graph.edges =
      Except.ok
        [{ relType := "CAUSAL_LINK", fromId := "a1", toId := "b1",
           props :=
             { consolidated := some true, consolidationScore := some 1,
               question := some exQ1 } }] ∧
    exQ1 ≠ exQ2 := by
  exact ⟨rfl, by decide⟩

/-- C5: ResetConsolidation resets DESCRIBES (and the other three listed
types) but leaves a consolidated CONSTITUTES edge and a consolidated
DESCRIBES_DYNAMIC edge untouched — both types are created elsewhere in
the codebase yet missing from the reset list, so after Reset edges
remain with consolidated = true and nonzero score, contrary to the
claim (and to the handler's own "All nodes and relationships reset"
response). -/
theorem c5_reset_misses_constitutes :
    (resetConsolidation exResetGraph).edges.map
        (fun e => (e.relType, e.props.consolidated, e.props.consolidationScore)) =
      [("CONSTITUTES", some true, some 3),
       ("DESCRIBES_DYNAMIC", some true, some 2),
       ("DESCRIBES", some false, some 0)] ∧
    (resetConsolidation exResetGraph).nodes.map
        (fun n => (n.consolidated, n.consolidationScore)) = [(false, 0)] := by
  exact ⟨rfl, rfl⟩

/-- C4 counterexample: a missing GEMINI_API_KEY — one of the failure
modes the claim says is caught locally — is returned as an error from
the synthesis step, so the orchestrator aborts the run instead of
proceeding. -/
theorem c4_missing_key_aborts_counterexample :
    consolidateGraphFromMatches "" (fun _ => SynthOutcome.networkFailed)
        exCausalGraph exCausalMatches =
      Except.error "GEMINI_API_KEY environment variable not set" := rfl

/-- C4 (corrected): with the API key present every per-match failure
mode (node fetch, request creation, network, non-OK status, response
decode, inner JSON parse) is caught locally: synthesis returns ok, a
match whose interaction did not fully succeed keeps its original
name/description, and the orchestrator proceeds through the merge,
rewiring and cleanup phases; but a missing GEMINI_API_KEY aborts the
run before any synthesis. -/
theorem c4_synthesis_failures_local (geminiApiKey : String)
    (outcome : Nat → SynthOutcome) (g : Graph) (ms : List NodeMatch)
    (hkey : geminiApiKey ≠ "") :
    ∃ ms2, synthesizeNamesAndDescriptions geminiApiKey outcome ms = Except.ok ms2 ∧
      ms2.length = ms.length ∧
      (∀ i : Fin ms.length, ∀ h2 : (i : ℕ) < ms2.length,
        (∀ n d, outcome i ≠ SynthOutcome.success n d) →
        ms2.get ⟨i, h2⟩ = ms.get i) ∧
      consolidateGraphFromMatches geminiApiKey outcome g ms =
        Except.ok (cleanupUnconsolidatedNodes
          (consolidateRelationships (consolidateNodes g ms2) ms2)) := by
  have hsynth : synthesizeNamesAndDescriptions geminiApiKey outcome ms =
      Except.ok (ms.enum.map (fun p =>
        if p.2.UnconsolidatedID == p.2.ConsolidatedID then p.2
        else applySynthOutcome (outcome p.1) p.2)) := by
    unfold synthesizeNamesAndDescriptions
    rw [if_neg hkey]
  refine ⟨_, hsynth, ?_, ?_, ?_⟩
  · simp
  · intro i h2 hfail
    rw [List.get_eq_getElem, List.get_eq_getElem, List.getElem_map, List.getElem_enum]
    by_cases hpromo : (ms[(i : ℕ)].UnconsolidatedID == ms[(i : ℕ)].ConsolidatedID) = true
    · rw [if_pos hpromo]
    · rw [if_neg hpromo]
      cases ho : outcome (i : ℕ) with
      | success n d => exact absurd ho (hfail n d)
      | fetchUnconsolidatedFailed => rfl
      | fetchConsolidatedFailed => rfl
      | requestCreationFailed => rfl
      | networkFailed => rfl
      | httpStatusNotOk code => rfl
      | responseDecodeFailed => rfl
      | payloadNotJson => rfl
  · unfold consolidateGraphFromMatches
    rw [hsynth]

theorem c4_synthesis_failures_local_witness :
    ∃ ms2, synthesizeNamesAndDescriptions "key"
        (fun _ => SynthOutcome.networkFailed) exCausalMatches = Except.ok ms2 ∧
      ms2.length = exCausalMatches.length ∧
      (∀ i : Fin exCausalMatches.length, ∀ h2 : (i : ℕ) < ms2.length,
        (∀ n d, (fun _ => SynthOutcome.networkFailed) (i : ℕ) ≠
          SynthOutcome.success n d) →
        ms2.get ⟨i, h2⟩ = exCausalMatches.get i) ∧
      consolidateGraphFromMatches "key" (fun _ => SynthOutcome.networkFailed)
          exCausalGraph exCausalMatches =
        Except.ok (cleanupUnconsolidatedNodes
          (consolidateRelationships (consolidateNodes exCausalGraph ms2) ms2)) :=
  c4_synthesis_failures_local "key" (fun _ => SynthOutcome.networkFailed)
    exCausalGraph exCausalMatches (by decide)

theorem c2_embedding_mismatch_keeps_absorbed_witness :
    ∃ g2, mergeIntoConsolidatedNode exMismatchGraph exMismatchMatch = Except.ok g2 ∧
      ({ exStock "c" [3, 5] true 1 with
          embedding := (exStock "u" [2] false 0).embedding,
          consolidationScore := (exStock "c" [3, 5] true 1).consolidationScore + 1,
          name := if exMismatchMatch.NewName ≠ "" then exMismatchMatch.NewName
            else (exStock "c" [3, 5] true 1).name,
          description := if exMismatchMatch.NewDescription ≠ "" then
            exMismatchMatch.NewDescription
            else (exStock "c" [3, 5] true 1).description } ∈ g2.nodes) ∧
      (∀ n ∈ g2.nodes, n.id ≠ exMismatchMatch.UnconsolidatedID) ∧
      g2.edges = ((exMismatchGraph.edges.filter (fun e =>
          e.fromId == exMismatchMatch.UnconsolidatedID ||
          e.toId == exMismatchMatch.UnconsolidatedID)).foldl
        (transferStep exMismatchMatch.UnconsolidatedID exMismatchMatch.ConsolidatedID)
        exMismatchGraph.edges).filter
        (fun e => e.fromId ≠ exMismatchMatch.UnconsolidatedID ∧
          e.toId ≠ exMismatchMatch.UnconsolidatedID) :=
  c2_embedding_mismatch_keeps_absorbed exMismatchGraph exMismatchMatch
    (exStock "u" [2] false 0) (exStock "c" [3, 5] true 1)
    (by decide) (by decide) (by decide) (by decide) (by decide)

end Consolidation
